import Mathlib

/-!
Verification of the retry/async-operation coordination layer and selected
pure helpers of the dd-cloud-compute-terraform provider.

Go strings are modelled as `List Char` where their contents matter and as
`String` where they are only used as opaque keys.  Remote-API errors are
modelled by the inductive `GoError`; a Go `error` value (which may be nil)
is `Option GoError`.
-/

/-- Remote API errors, as classified by the compute client's predicates
`IsResourceBusyError` and `IsNoIPAddressAvailableError`.  Every other error
value is in neither transient category. -/
inductive GoError : Type
  | resourceBusy
  | noIPAvailable
  | other (code : Nat)
deriving DecidableEq, Repr

/-- compute.IsResourceBusyError, lifted to a possibly-nil Go error value
(the predicate is false on nil). -/
def isResourceBusyError : Option GoError → Bool
  | some .resourceBusy => true
  | _ => false

/-- compute.IsNoIPAddressAvailableError, lifted to a possibly-nil Go error
value (the predicate is false on nil). -/
def isNoIPAddressAvailableError : Option GoError → Bool
  | some .noIPAvailable => true
  | _ => false

/-- Modelled from the spec: the per-attempt signal held by a RetryContext
when the action returns (the retry package is not part of the sources here;
this follows spec sections 3 and 4.1).  Exactly one of
no-signal / retry / fail(err) holds when an attempt finishes. -/
inductive RetrySignal (ε : Type) : Type
  | noSignal
  | retry
  | fail (e : ε)
deriving DecidableEq, Repr

/-- Modelled from the spec: the outcome of RetryExecutor.Run (spec section
4.2): nil on success, the recorded error verbatim on a Fail signal, and a
distinct exhausted-retries error when max attempts is reached while still
receiving Retry signals. -/
inductive RunResult (ε : Type) : Type
  | success
  | failed (e : ε)
  | retriesExhausted
deriving DecidableEq, Repr

/-- Observable events of one RetryExecutor.Run call: each invocation of the
action (tagged with its 1-based attempt number) and each inter-attempt sleep
(tagged with the configured delay). -/
inductive RetryEvent : Type
  | invoke (attempt : Nat)
  | sleep (delay : Nat)
deriving DecidableEq, Repr

/-- Whether a retry event is an invocation of the action. -/
def RetryEvent.isInvoke : RetryEvent → Bool
  | .invoke _ => true
  | _ => false

/-- Whether a retry event is an inter-attempt sleep. -/
def RetryEvent.isSleep : RetryEvent → Bool
  | .sleep _ => true
  | _ => false

/-- Number of action invocations recorded in a trace. -/
def invokeCount (tr : List RetryEvent) : Nat :=
  tr.countP (fun e => e.isInvoke)

/-- Number of inter-attempt sleeps recorded in a trace. -/
def sleepCount (tr : List RetryEvent) : Nat :=
  tr.countP (fun e => e.isSleep)

/-- Modelled from the spec: the attempt loop of RetryExecutor.Run (spec
section 4.2, the retry package itself is not among the sources).  The action
is modelled by the signal its RetryContext holds when attempt `n` returns.
`remaining` counts the attempts still allowed, the current one included, so
the loop guard `attempt < maxAttempts` becomes `remaining > 1`.  Returns the
run outcome together with the trace of invocations and sleeps. -/
def runRetryFrom {ε : Type} (action : Nat → RetrySignal ε) (delay : Nat) :
    Nat → Nat → RunResult ε × List RetryEvent
  | _attempt, 0 => (.retriesExhausted, [])
  | attempt, remaining + 1 =>
    match action attempt with
    | .noSignal => (.success, [.invoke attempt])
    | .fail e => (.failed e, [.invoke attempt])
    | .retry =>
      if remaining = 0 then
        (.retriesExhausted, [.invoke attempt])
      else
        let rest := runRetryFrom action delay (attempt + 1) remaining
        (rest.1, .invoke attempt :: .sleep delay :: rest.2)

/-- Modelled from the spec: RetryExecutor.Run with the given action, maximum
attempt count and inter-attempt delay; attempts are numbered from 1. -/
def runRetry {ε : Type} (action : Nat → RetrySignal ε) (maxAttempts delay : Nat) :
    RunResult ε × List RetryEvent :=
  runRetryFrom action delay 1 maxAttempts

example : runRetry (fun _ => (RetrySignal.retry : RetrySignal (Option GoError))) 3 7 =
    (.retriesExhausted,
      [.invoke 1, .sleep 7, .invoke 2, .sleep 7, .invoke 3]) := by decide

example : runRetry (fun n => if n < 3 then (RetrySignal.retry : RetrySignal (Option GoError))
      else .noSignal) 3 0 =
    (.success, [.invoke 1, .sleep 0, .invoke 2, .sleep 0, .invoke 3]) := by decide

example : runRetry (fun _ => RetrySignal.fail (some (GoError.other 5))) 4 0 =
    (.failed (some (GoError.other 5)), [.invoke 1]) := by decide

/-!  The async-operation lock.  The retry package holding the lock map is
not among the sources; the model below follows spec sections 4.3 and 9. -/

/-- Modelled from the spec: the process-wide lock map of the
AsyncOperationLock (spec section 4.3): for each key, whether an in-flight
operation currently holds it. -/
structure LockState : Type where
  held : String → Bool

/-- Modelled from the spec: the handle returned by Acquire — the key it
guards plus the atomic already-released flag of spec section 9 that makes
Release idempotent. -/
structure Lock : Type where
  key : String
  released : Bool
deriving DecidableEq

/-- Modelled from the spec: AcquireAsyncOperationLock.  Acquire blocks until
the key is free; in this step model it returns `none` while the caller would
still be blocked, and otherwise marks the key held and hands back a fresh,
unreleased handle. -/
def acquireLock (s : LockState) (key : String) : Option (LockState × Lock) :=
  if s.held key then
    none
  else
    some ({ held := fun k => if k == key then true else s.held k },
          { key := key, released := false })

/-- Modelled from the spec: Lock.Release with the already-released flag
(spec section 9): the first call frees the key, every later call on the same
handle is a no-op.  The returned number counts the actual unlocks performed
by this call (0 or 1). -/
def releaseLock (s : LockState) (l : Lock) : LockState × Lock × Nat :=
  if l.released then
    (s, l, 0)
  else
    ({ held := fun k => if k == l.key then false else s.held k },
     { l with released := true }, 1)

/-!  Interleaved executions of Acquire/Release by several goroutines, for
the per-key mutual-exclusion property.  A step is enabled exactly when the
corresponding call would return (Acquire blocks while the key is held). -/

/-- One observable lock transition: goroutine `tid` acquires or releases
`key`. -/
inductive LockEvent : Type
  | acquire (tid : Nat) (key : String)
  | release (tid : Nat) (key : String)
deriving DecidableEq

/-- Modelled from the spec: the per-key state machine of spec section 4.3,
with the holder's identity recorded.  Acquire is enabled only when nobody
holds the key; Release is performed by the holder's handle.  `none` means
the event is not enabled in this state (an acquiring goroutine would still
be blocked). -/
def holderStep (h : String → Option Nat) : LockEvent → Option (String → Option Nat)
  | .acquire t k =>
    if h k = none then some (fun k2 => if k2 == k then some t else h k2) else none
  | .release t k =>
    if h k = some t then some (fun k2 => if k2 == k then none else h k2) else none

/-- Run a sequence of lock events from a holder state; `none` when some
event along the way is not enabled. -/
def runEvents (h : String → Option Nat) : List LockEvent → Option (String → Option Nat)
  | [] => some h
  | e :: rest =>
    match holderStep h e with
    | none => none
    | some h2 => runEvents h2 rest

/-- The holder state in which every key is free. -/
def allFree : String → Option Nat := fun _ => none

/-!  Resource-handler retry actions, embedded from the sources.  Each action
is represented by the signal its RetryContext holds when the attempt
returns, as a function of the outcome of the one remote call it makes. -/

/-- The decision logic of the retry action in resourceStaticRouteDelete.
`deleteErr` is the result of apiClient.DeleteStaticRoute.  The enclosing
function declares `var err error` and only assigns it the result of
RetryAction after RetryAction returns, so while the action body runs the
captured `err` is still nil; the body tests `err != nil` (not
`deleteErr != nil`) before calling context.Fail. -/
def staticRouteDeleteSignal (deleteErr : Option GoError) : RetrySignal (Option GoError) :=
  let err : Option GoError := none
  if isResourceBusyError deleteErr then .retry
  else if err.isSome then .fail deleteErr
  else .noSignal

/-- The decision logic of the delete-phase retry action in
resourceStaticRouteUpdate: identical shape, with the captured outer variable
named `errDel` (also still nil while the action body runs). -/
def staticRouteUpdateDeleteSignal (deleteErr : Option GoError) : RetrySignal (Option GoError) :=
  let errDel : Option GoError := none
  if isResourceBusyError deleteErr then .retry
  else if errDel.isSome then .fail deleteErr
  else .noSignal

/-- One attempt of the resourceNATDelete retry action, over the lock model:
acquire the async-operation lock, issue DeleteNATRule (outcome `deleteErr`),
classify it (busy maps to Retry, any other non-nil error to Fail), then the
deferred asyncLock.Release() runs.  Returns the lock state after the
attempt, the number of actual unlocks performed during the attempt, and the
signal; `none` while Acquire would still block. -/
def natDeleteAttempt (s : LockState) (key : String) (deleteErr : Option GoError) :
    Option (LockState × Nat × RetrySignal (Option GoError)) :=
  match acquireLock s key with
  | none => none
  | some (s1, asyncLock) =>
    let signal : RetrySignal (Option GoError) :=
      match deleteErr with
      | none => .noSignal
      | some e => if isResourceBusyError (some e) then .retry else .fail (some e)
    let r := releaseLock s1 asyncLock
    some (r.1, r.2.2, signal)

/-- One attempt of the resourceStaticRouteCreate retry action, over the lock
model: acquire the async-operation lock (with a deferred Release), issue
CreateStaticRoute (outcome `deployErr`), classify it (busy maps to Retry,
any other non-nil error to Fail via `deployError != nil`), call
asyncLock.Release() explicitly, then the deferred asyncLock.Release() runs.
Returns the lock state after the attempt, the total number of actual
unlocks performed, and the signal. -/
def staticRouteCreateAttempt (s : LockState) (key : String) (deployErr : Option GoError) :
    Option (LockState × Nat × RetrySignal (Option GoError)) :=
  match acquireLock s key with
  | none => none
  | some (s1, asyncLock) =>
    let signal : RetrySignal (Option GoError) :=
      if isResourceBusyError deployErr then .retry
      else
        match deployErr with
        | some e => .fail (some e)
        | none => .noSignal
    let r1 := releaseLock s1 asyncLock
    let r2 := releaseLock r1.1 r1.2.1
    some (r2.1, r1.2.2 + r2.2.2, signal)

/-!  Create actions that remediate address exhaustion (C8).  The observable
steps of one attempt are recorded as an event trace. -/

/-- Observable steps of one attempt of a create action: the remote create
call, the addPublicIPBlock remediation call, and the signal recorded on the
RetryContext. -/
inductive ActionEvent : Type
  | callRemote
  | allocBlock
  | sigRetry
  | sigFail (e : Option GoError)
deriving DecidableEq

/-- The event trace of one attempt of the resourceNATCreate retry action
(resource_nat.go): AddNATRule returns `createErr`; on a busy error the
action signals Retry; on a no-IP-available error it calls addPublicIPBlock
(outcome `allocErr`) and signals Fail with the allocation error when that
call fails, otherwise Retry; any other non-nil error is signalled as Fail. -/
def natCreateTrace (createErr : Option GoError) (allocErr : Option GoError) :
    List ActionEvent :=
  .callRemote ::
    match createErr with
    | none => []
    | some e =>
      if isResourceBusyError (some e) then [.sigRetry]
      else if isNoIPAddressAvailableError (some e) then
        match allocErr with
        | some ae => [.allocBlock, .sigFail (some ae)]
        | none => [.allocBlock, .sigRetry]
      else [.sigFail (some e)]

/-- The event trace of one attempt of the resourceVirtualListenerCreate
retry action: CreateVirtualListener returns `createErr`, and the
classification mirrors resourceNATCreate (busy retries; no-IP-available
allocates a block and retries, failing with the allocation error when the
allocation fails; anything else fails with the create error). -/
def virtualListenerCreateTrace (createErr : Option GoError) (allocErr : Option GoError) :
    List ActionEvent :=
  .callRemote ::
    match createErr with
    | none => []
    | some e =>
      if isResourceBusyError (some e) then [.sigRetry]
      else if isNoIPAddressAvailableError (some e) then
        match allocErr with
        | some ae => [.allocBlock, .sigFail (some ae)]
        | none => [.allocBlock, .sigRetry]
      else [.sigFail (some e)]

/-!  calculateBlockAddresses (resource_nat.go), with the Go string and
strconv primitives it uses. -/

/-- strconv.Itoa / Int formatting: decimal representation with a leading
minus sign for negative values. -/
def goItoa (n : Int) : List Char :=
  (toString n).toList

/-- Go int (64-bit) addition: the mathematical sum wrapped two's-complement
into the interval from -2^63 up to 2^63 - 1. -/
def goIntAdd64 (a b : Int) : Int :=
  ((a + b + 2 ^ 63) % 2 ^ 64) - 2 ^ 63

/-- strconv.Atoi: an optional single sign followed by at least one decimal
digit, rejecting anything else and values outside the 64-bit int range
(`none` models a non-nil error). -/
def goAtoi (s : List Char) : Option Int :=
  let core : Int → List Char → Option Int := fun sign ds =>
    if ds = [] || !ds.all Char.isDigit then none
    else
      let v : Int := sign * ((ds.foldl (fun acc c => acc * 10 + (c.toNat - 48)) (0 : Nat) : Nat) : Int)
      if v < -(2 ^ 63) || 2 ^ 63 - 1 < v then none else some v
  match s with
  | '+' :: rest => core 1 rest
  | '-' :: rest => core (-1) rest
  | _ => core 1 s

/-- compute.PublicIPBlock, restricted to the fields calculateBlockAddresses
reads.  Size is the Go int slice length passed to make (non-negative in any
run that does not panic). -/
structure PublicIPBlock : Type where
  BaseIP : List Char
  Size : Nat

/-- calculateBlockAddresses (resource_nat.go): allocate Size empty address
strings; split BaseIP on dots; with anything but exactly 4 components, or a
last component Atoi rejects, return the untouched slice plus an error (the
Bool); otherwise set entry i to the components re-joined with the last octet
replaced by the Go int sum baseOctet + i (64-bit, wrapping). -/
def calculateBlockAddresses (block : PublicIPBlock) : List (List Char) × Bool :=
  let addresses : List (List Char) := List.replicate block.Size []
  let baseAddressComponents := block.BaseIP.splitOn '.'
  if baseAddressComponents.length ≠ 4 then
    (addresses, true)
  else
    match goAtoi (baseAddressComponents.getD 3 []) with
    | none => (addresses, true)
    | some baseOctet =>
      ((List.range block.Size).map (fun (index : Nat) =>
        List.intercalate ['.']
          (baseAddressComponents.set 3 (goItoa (goIntAdd64 baseOctet (index : Int))))),
       false)

example : calculateBlockAddresses ⟨"10.0.0.250".toList, 3⟩ =
    (["10.0.0.250".toList, "10.0.0.251".toList, "10.0.0.252".toList], false) := by decide

example : (calculateBlockAddresses ⟨"10.0.0.250".toList, 10⟩).1.getD 9 [] =
    "10.0.0.259".toList := by decide

example : calculateBlockAddresses ⟨"10.0.0".toList, 2⟩ = ([[], []], true) := by decide

example : calculateBlockAddresses ⟨"10.0.0.x".toList, 2⟩ = ([[], []], true) := by decide

/-!  validateAdminPassword (resource_server.go), with the character classes
of the Go unicode package modelled over the ASCII range (classification of
characters above U+007F is not needed by the claims and is modelled as
no class). -/

/-- unicode.IsDigit on the ASCII range. -/
def goIsDigit (c : Char) : Bool :=
  48 ≤ c.toNat && c.toNat ≤ 57

/-- unicode.IsUpper on the ASCII range. -/
def goIsUpper (c : Char) : Bool :=
  65 ≤ c.toNat && c.toNat ≤ 90

/-- unicode.IsPunct on the ASCII range (Unicode categories Pc Pd Ps Pe Pi
Pf Po). -/
def goIsPunct (c : Char) : Bool :=
  c.toNat ∈ [33, 34, 35, 37, 38, 39, 40, 41, 42, 44, 45, 46, 47,
             58, 59, 63, 64, 91, 92, 93, 95, 123, 125]

/-- unicode.IsSymbol on the ASCII range (Unicode categories Sm Sc Sk So). -/
def goIsSymbol (c : Char) : Bool :=
  c.toNat ∈ [36, 43, 60, 61, 62, 94, 96, 124, 126]

/-- unicode.IsLetter on the ASCII range. -/
def goIsLetter (c : Char) : Bool :=
  goIsUpper c || (97 ≤ c.toNat && c.toNat ≤ 122)

/-- Go len() of a string: its UTF-8 byte count. -/
def goLen (s : List Char) : Nat :=
  (s.map Char.utf8Size).sum

/-- The character-classification loop of validateAdminPassword, one switch
per character with the source's case order (digit, then upper, then
punct-or-symbol, then letter-or-space, then nothing); yields
(lettersCount, numCount, specialCount, upperCaseCount). -/
def passwordCounts : List Char → Nat × Nat × Nat × Nat
  | [] => (0, 0, 0, 0)
  | c :: rest =>
    let (letters, nums, specials, uppers) := passwordCounts rest
    if goIsDigit c then (letters, nums + 1, specials, uppers)
    else if goIsUpper c then (letters + 1, nums, specials, uppers + 1)
    else if goIsPunct c || goIsSymbol c then (letters, nums, specials + 1, uppers)
    else if goIsLetter c || c = ' ' then (letters + 1, nums, specials, uppers)
    else (letters, nums, specials, uppers)

/-- The validPassword flag of validateAdminPassword: starts true and is
cleared when the length is under 8 bytes or any of the four counters is
zero. -/
def validPassword (adminPassword : List Char) : Bool :=
  let (letters, nums, specials, uppers) := passwordCounts adminPassword
  !(goLen adminPassword < 8 || nums < 1 || letters < 1 || specials < 1 || uppers < 1)

/-- compute.Image type tags as consumed by validateAdminPassword via
image.GetType(). -/
inductive GoImageType : Type
  | os
  | customer
  | unknownType
deriving DecidableEq

/-- The OperatingSystem fields validateAdminPassword reads via
image.GetOS(). -/
structure GoOS : Type where
  family : List Char
  id : List Char

/-- A compute.Image, restricted to what validateAdminPassword consumes. -/
structure GoImage : Type where
  imageType : GoImageType
  os : GoOS

/-- The distinct error returns of validateAdminPassword.  The OS-image
complexity message is the one whose text demands at least 9 characters
while the code checks for 8. -/
inductive AdminPasswordError : Type
  | osImageComplexity
  | linuxCustomerImagePassword
  | win2008PasswordRequired
  | win2012R2PasswordRequired
  | win2012PasswordRequired
  | unknownImageType
deriving DecidableEq

/-- validateAdminPassword (resource_server.go): OS images demand a valid
password; customer UNIX images reject any non-empty password; customer
Windows images demand a valid password for WIN2008 / WIN2012R2 / WIN2012
image IDs; other image types are rejected outright.  `none` models a nil
error. -/
def validateAdminPassword (adminPassword : List Char) (image : GoImage) :
    Option AdminPasswordError :=
  match image.imageType with
  | .os =>
    if !validPassword adminPassword then some .osImageComplexity else none
  | .customer =>
    if image.os.family = "UNIX".toList && adminPassword ≠ [] then
      some .linuxCustomerImagePassword
    else if image.os.family ≠ "WINDOWS".toList then none
    else if "WIN2008".toList.isPrefixOf image.os.id && !validPassword adminPassword then
      some .win2008PasswordRequired
    else if "WIN2012R2".toList.isPrefixOf image.os.id && !validPassword adminPassword then
      some .win2012R2PasswordRequired
    else if "WIN2012".toList.isPrefixOf image.os.id && !validPassword adminPassword then
      some .win2012PasswordRequired
    else none
  | .unknownType => some .unknownImageType

example : validateAdminPassword "Passw0rd!".toList ⟨.os, ⟨[], []⟩⟩ = none := by decide

example : validateAdminPassword "Passw0r!".toList ⟨.os, ⟨[], []⟩⟩ = none := by decide

example : validateAdminPassword "Pass0r!".toList ⟨.os, ⟨[], []⟩⟩ =
    some .osImageComplexity := by decide

example : validateAdminPassword "passw0rd!".toList ⟨.os, ⟨[], []⟩⟩ =
    some .osImageComplexity := by decide

/-!  Shared lemmas about the retry executor. -/

theorem invokeCount_cons_invoke (a : Nat) (tr : List RetryEvent) :
    invokeCount (.invoke a :: tr) = invokeCount tr + 1 := by
  simp [invokeCount, List.countP_cons, RetryEvent.isInvoke]

theorem invokeCount_cons_sleep (d : Nat) (tr : List RetryEvent) :
    invokeCount (.sleep d :: tr) = invokeCount tr := by
  simp [invokeCount, List.countP_cons, RetryEvent.isInvoke]

theorem sleepCount_cons_invoke (a : Nat) (tr : List RetryEvent) :
    sleepCount (.invoke a :: tr) = sleepCount tr := by
  simp [sleepCount, List.countP_cons, RetryEvent.isSleep]

theorem sleepCount_cons_sleep (d : Nat) (tr : List RetryEvent) :
    sleepCount (.sleep d :: tr) = sleepCount tr + 1 := by
  simp [sleepCount, List.countP_cons, RetryEvent.isSleep]

theorem runRetryFrom_alwaysRetry {ε : Type} (d : Nat) :
    ∀ remaining attempt : Nat, 1 ≤ remaining →
      (runRetryFrom (fun _ => (RetrySignal.retry : RetrySignal ε)) d attempt remaining).1 =
          .retriesExhausted ∧
      invokeCount (runRetryFrom (fun _ => (RetrySignal.retry : RetrySignal ε)) d attempt remaining).2 =
          remaining ∧
      sleepCount (runRetryFrom (fun _ => (RetrySignal.retry : RetrySignal ε)) d attempt remaining).2 =
          remaining - 1 := by
  intro remaining
  induction remaining with
  | zero => intro attempt h; omega
  | succ n ih =>
    intro attempt _
    by_cases hn : n = 0
    · subst hn
      simp [runRetryFrom, invokeCount, sleepCount, List.countP_cons,
        RetryEvent.isInvoke, RetryEvent.isSleep]
    · have hrec := ih (attempt + 1) (by omega)
      simp only [runRetryFrom, hn, if_false]
      refine ⟨hrec.1, ?_, ?_⟩
      · rw [invokeCount_cons_invoke, invokeCount_cons_sleep, hrec.2.1]
      · rw [sleepCount_cons_invoke, sleepCount_cons_sleep, hrec.2.2]
        omega

theorem runRetryFrom_failAt {ε : Type} (action : Nat → RetrySignal ε) (d : Nat) (err : ε) :
    ∀ j remaining attempt : Nat, j < remaining →
      (∀ i, attempt ≤ i → i < attempt + j → action i = .retry) →
      action (attempt + j) = .fail err →
      (runRetryFrom action d attempt remaining).1 = .failed err ∧
      invokeCount (runRetryFrom action d attempt remaining).2 = j + 1 := by
  intro j
  induction j with
  | zero =>
    intro remaining attempt hj _ hfail
    obtain ⟨n, rfl⟩ : ∃ n, remaining = n + 1 := ⟨remaining - 1, by omega⟩
    rw [Nat.add_zero] at hfail
    simp [runRetryFrom, hfail, invokeCount, List.countP_cons, RetryEvent.isInvoke]
  | succ k ih =>
    intro remaining attempt hj hretry hfail
    obtain ⟨n, rfl⟩ : ∃ n, remaining = n + 1 := ⟨remaining - 1, by omega⟩
    have hcur : action attempt = .retry := hretry attempt (le_refl _) (by omega)
    have hn : ¬(n = 0) := by omega
    have hrec := ih n (attempt + 1) (by omega)
      (fun i h1 h2 => hretry i (by omega) (by omega))
      (by rw [show attempt + 1 + k = attempt + (k + 1) by omega]; exact hfail)
    simp only [runRetryFrom, hcur, hn, if_false]
    refine ⟨hrec.1, ?_⟩
    rw [invokeCount_cons_invoke, invokeCount_cons_sleep, hrec.2]

/-- C3: for every maxAttempts N ≥ 1, an action that signals Retry on every
attempt is invoked exactly N times, the configured delay is slept between
consecutive attempts (N - 1 sleeps, each of the configured delay), and the
run returns the exhausted-retries outcome, which is distinct from every
hard-failure outcome. -/
theorem retryAlways_exhausted (N d : Nat) (h : 1 ≤ N) :
    (runRetry (fun _ => (RetrySignal.retry : RetrySignal (Option GoError))) N d).1 =
        .retriesExhausted ∧
    invokeCount (runRetry (fun _ => (RetrySignal.retry : RetrySignal (Option GoError))) N d).2 = N ∧
    sleepCount (runRetry (fun _ => (RetrySignal.retry : RetrySignal (Option GoError))) N d).2 =
        N - 1 ∧
    (∀ tr, tr ∈ (runRetry (fun _ => (RetrySignal.retry : RetrySignal (Option GoError))) N d).2 →
        tr.isSleep = true → tr = .sleep d) ∧
    (∀ e : Option GoError,
        (RunResult.retriesExhausted : RunResult (Option GoError)) ≠ .failed e) := by
  have hmain := runRetryFrom_alwaysRetry (ε := Option GoError) d N 1 h
  refine ⟨hmain.1, hmain.2.1, hmain.2.2, ?_, fun e => by simp⟩
  have hsleep : ∀ remaining attempt : Nat,
      ∀ tr ∈ (runRetryFrom (fun _ => (RetrySignal.retry : RetrySignal (Option GoError)))
        d attempt remaining).2, tr.isSleep = true → tr = .sleep d := by
    intro remaining
    induction remaining with
    | zero => intro attempt tr htr; simp [runRetryFrom] at htr
    | succ n ih =>
      intro attempt tr htr hs
      by_cases hn : n = 0
      · subst hn
        simp [runRetryFrom] at htr
        subst htr
        simp [RetryEvent.isSleep] at hs
      · simp only [runRetryFrom, hn, if_false, List.mem_cons] at htr
        rcases htr with rfl | rfl | htr
        · simp [RetryEvent.isSleep] at hs
        · rfl
        · exact ih (attempt + 1) tr htr hs
  exact hsleep N 1

/-- Witness for C3 at N = 5, d = 3. -/
theorem retryAlways_exhausted_witness :
    (runRetry (fun _ => (RetrySignal.retry : RetrySignal (Option GoError))) 5 3).1 =
        .retriesExhausted ∧
    invokeCount (runRetry (fun _ => (RetrySignal.retry : RetrySignal (Option GoError))) 5 3).2 = 5 ∧
    sleepCount (runRetry (fun _ => (RetrySignal.retry : RetrySignal (Option GoError))) 5 3).2 =
        5 - 1 ∧
    (∀ tr, tr ∈ (runRetry (fun _ => (RetrySignal.retry : RetrySignal (Option GoError))) 5 3).2 →
        tr.isSleep = true → tr = .sleep 3) ∧
    (∀ e : Option GoError,
        (RunResult.retriesExhausted : RunResult (Option GoError)) ≠ .failed e) :=
  retryAlways_exhausted 5 3 (by decide)

/-- C4: an action that signals Retry on attempts 1..k-1 and Fail(err) on
attempt k ≤ N is invoked exactly k times, and the run returns that error
verbatim with no further attempts. -/
theorem failAt_returnsErrorVerbatim (action : Nat → RetrySignal (Option GoError))
    (N d k : Nat) (err : Option GoError)
    (hk1 : 1 ≤ k) (hkN : k ≤ N)
    (hretry : ∀ i, 1 ≤ i → i < k → action i = .retry)
    (hfail : action k = .fail err) :
    (runRetry action N d).1 = .failed err ∧
    invokeCount (runRetry action N d).2 = k := by
  have h := runRetryFrom_failAt action d err (k - 1) N 1 (by omega)
    (fun i h1 h2 => hretry i h1 (by omega))
    (by rw [show 1 + (k - 1) = k by omega]; exact hfail)
  exact ⟨h.1, by rw [runRetry, h.2]; omega⟩

/-- Witness for C4: Retry on attempts 1 and 2, Fail on attempt 3 of 5. -/
theorem failAt_returnsErrorVerbatim_witness :
    (runRetry (fun n => if n < 3 then (RetrySignal.retry : RetrySignal (Option GoError))
        else .fail (some (GoError.other 7))) 5 0).1 = .failed (some (GoError.other 7)) ∧
    invokeCount (runRetry (fun n => if n < 3 then (RetrySignal.retry : RetrySignal (Option GoError))
        else .fail (some (GoError.other 7))) 5 0).2 = 3 :=
  failAt_returnsErrorVerbatim _ 5 0 3 (some (GoError.other 7)) (by decide) (by decide)
    (fun i h1 h2 => by
      have : i < 3 := h2
      simp [this])
    (by decide)

/-- C5: an action whose first attempt returns without signalling is invoked
exactly once and the run returns success immediately (the whole trace is the
single first invocation). -/
theorem noSignal_isSuccess (action : Nat → RetrySignal (Option GoError)) (N d : Nat)
    (hN : 1 ≤ N) (h1 : action 1 = .noSignal) :
    (runRetry action N d).1 = .success ∧
    (runRetry action N d).2 = [.invoke 1] ∧
    invokeCount (runRetry action N d).2 = 1 := by
  obtain ⟨n, rfl⟩ : ∃ n, N = n + 1 := ⟨N - 1, by omega⟩
  rw [runRetry]
  simp [runRetryFrom, h1, invokeCount, List.countP_cons, RetryEvent.isInvoke]

/-- Witness for C5: an action that never signals, with maxAttempts = 4. -/
theorem noSignal_isSuccess_witness :
    (runRetry (fun _ => (RetrySignal.noSignal : RetrySignal (Option GoError))) 4 2).1 =
        .success ∧
    (runRetry (fun _ => (RetrySignal.noSignal : RetrySignal (Option GoError))) 4 2).2 =
        [.invoke 1] ∧
    invokeCount (runRetry (fun _ => (RetrySignal.noSignal : RetrySignal (Option GoError))) 4 2).2 =
        1 :=
  noSignal_isSuccess _ 4 2 (by decide) (by decide)

/-- C1: the claim fails on the static-route handlers.  When
DeleteStaticRoute returns an error that is neither nil nor a resource-busy
error, the delete action of resourceStaticRouteDelete and the delete-phase
action of resourceStaticRouteUpdate both return with no signal (their
`err != nil` / `errDel != nil` guards test the still-nil outer result
variable instead of deleteErr), so the executor treats the attempt as
success and the error is silently dropped instead of surfacing from
RetryAction. -/
theorem staticRouteDelete_dropsTerminalError :
    staticRouteDeleteSignal (some (GoError.other 0)) = .noSignal ∧
    staticRouteUpdateDeleteSignal (some (GoError.other 0)) = .noSignal ∧
    (runRetry (fun _ => staticRouteDeleteSignal (some (GoError.other 0))) 10 0).1 =
        .success ∧
    invokeCount (runRetry (fun _ => staticRouteDeleteSignal (some (GoError.other 0))) 10 0).2 =
        1 ∧
    (runRetry (fun _ => staticRouteUpdateDeleteSignal (some (GoError.other 0))) 10 0).1 =
        .success := by
  decide

/-- C2: Release on an async-operation lock handle is idempotent.  The first
Release on an unreleased acquisition performs exactly one actual unlock; the
second Release on the same acquisition performs none, leaves the lock map
untouched and the handle unchanged, so the explicit-plus-deferred Release
pattern performs exactly one actual unlock in total. -/
theorem releaseLock_idempotent (s : LockState) (l : Lock) (h : l.released = false) :
    (releaseLock s l).2.2 = 1 ∧
    releaseLock (releaseLock s l).1 (releaseLock s l).2.1 =
      ((releaseLock s l).1, (releaseLock s l).2.1, 0) ∧
    (releaseLock s l).2.2 + (releaseLock (releaseLock s l).1 (releaseLock s l).2.1).2.2 = 1 := by
  simp [releaseLock, h]

/-- Witness for C2 on a concrete held lock state and fresh handle. -/
theorem releaseLock_idempotent_witness :
    (releaseLock ⟨fun _ => true⟩ ⟨"k", false⟩).2.2 = 1 ∧
    releaseLock (releaseLock ⟨fun _ => true⟩ ⟨"k", false⟩).1
        (releaseLock ⟨fun _ => true⟩ ⟨"k", false⟩).2.1 =
      ((releaseLock ⟨fun _ => true⟩ ⟨"k", false⟩).1,
       (releaseLock ⟨fun _ => true⟩ ⟨"k", false⟩).2.1, 0) ∧
    (releaseLock ⟨fun _ => true⟩ ⟨"k", false⟩).2.2 +
      (releaseLock (releaseLock ⟨fun _ => true⟩ ⟨"k", false⟩).1
        (releaseLock ⟨fun _ => true⟩ ⟨"k", false⟩).2.1).2.2 = 1 :=
  releaseLock_idempotent ⟨fun _ => true⟩ ⟨"k", false⟩ rfl

/-- C7: one retry attempt of resourceNATDelete (deferred Release only) and
of resourceStaticRouteCreate (explicit Release plus deferred Release)
acquires the async-operation lock at the start and, on every outcome path
(success, Retry or Fail), performs exactly one actual unlock by the end of
the attempt, restoring the lock map to its pre-attempt state — so the key
is free again before the executor sleeps or the caller polls for
completion. -/
theorem handlerAttempt_releasesLockOnce (s : LockState) (key : String)
    (e1 e2 : Option GoError) (h : s.held key = false) :
    (∃ s1 n1 sig1, natDeleteAttempt s key e1 = some (s1, n1, sig1) ∧
        n1 = 1 ∧ s1.held key = false ∧ ∀ k, s1.held k = s.held k) ∧
    (∃ s2 n2 sig2, staticRouteCreateAttempt s key e2 = some (s2, n2, sig2) ∧
        n2 = 1 ∧ s2.held key = false ∧ ∀ k, s2.held k = s.held k) := by
  have hheld : ∀ k, (if k == key then false else if k == key then true else s.held k) =
      s.held k := by
    intro k
    by_cases hk : k = key
    · subst hk; simp [h]
    · have hkf : (k == key) = false := by simp [hk]
      simp [hkf]
  constructor
  · refine ⟨⟨fun k => if k == key then false else if k == key then true else s.held k⟩,
      1, ?_, ?_, rfl, by simp, hheld⟩
    · exact match e1 with
        | none => .noSignal
        | some e => if isResourceBusyError (some e) then .retry else .fail (some e)
    · cases e1 <;> simp [natDeleteAttempt, acquireLock, h, releaseLock]
  · refine ⟨⟨fun k => if k == key then false else if k == key then true else s.held k⟩,
      1, ?_, ?_, rfl, by simp, hheld⟩
    · exact if isResourceBusyError e2 then .retry
        else match e2 with
          | some e => .fail (some e)
          | none => .noSignal
    · cases e2 <;> simp [staticRouteCreateAttempt, acquireLock, h, releaseLock]

/-- Witness for C7 on the all-free lock map, with a busy delete outcome and
a terminal create outcome. -/
theorem handlerAttempt_releasesLockOnce_witness :
    (∃ s1 n1 sig1,
        natDeleteAttempt ⟨fun _ => false⟩ "dom" (some GoError.resourceBusy) =
          some (s1, n1, sig1) ∧
        n1 = 1 ∧ s1.held "dom" = false ∧ ∀ k, s1.held k = (fun _ => false : String → Bool) k) ∧
    (∃ s2 n2 sig2,
        staticRouteCreateAttempt ⟨fun _ => false⟩ "dom" (some (GoError.other 3)) =
          some (s2, n2, sig2) ∧
        n2 = 1 ∧ s2.held "dom" = false ∧ ∀ k, s2.held k = (fun _ => false : String → Bool) k) :=
  handlerAttempt_releasesLockOnce ⟨fun _ => false⟩ "dom"
    (some GoError.resourceBusy) (some (GoError.other 3)) rfl

/-- C8: on a NoIPAddressAvailable create failure, the resourceNATCreate and
resourceVirtualListenerCreate actions call addPublicIPBlock before signalling
Retry; when that allocation call fails they signal Fail with the allocation
error and never signal Retry. -/
theorem createActions_remediateThenRetry :
    natCreateTrace (some GoError.noIPAvailable) none =
        [.callRemote, .allocBlock, .sigRetry] ∧
    (∀ ae, natCreateTrace (some GoError.noIPAvailable) (some ae) =
        [.callRemote, .allocBlock, .sigFail (some ae)]) ∧
    (∀ ae, ActionEvent.sigRetry ∉ natCreateTrace (some GoError.noIPAvailable) (some ae)) ∧
    virtualListenerCreateTrace (some GoError.noIPAvailable) none =
        [.callRemote, .allocBlock, .sigRetry] ∧
    (∀ ae, virtualListenerCreateTrace (some GoError.noIPAvailable) (some ae) =
        [.callRemote, .allocBlock, .sigFail (some ae)]) ∧
    (∀ ae, ActionEvent.sigRetry ∉
        virtualListenerCreateTrace (some GoError.noIPAvailable) (some ae)) := by
  refine ⟨by decide, fun ae => ?_, fun ae => ?_, by decide, fun ae => ?_, fun ae => ?_⟩ <;>
    simp [natCreateTrace, virtualListenerCreateTrace,
      isResourceBusyError, isNoIPAddressAvailableError]

/-!  Shared lemmas about interleaved lock traces. -/

theorem runEvents_append (h : String → Option Nat) (l1 l2 : List LockEvent) :
    runEvents h (l1 ++ l2) = (runEvents h l1).bind (fun h2 => runEvents h2 l2) := by
  induction l1 generalizing h with
  | nil => simp [runEvents]
  | cons e rest ih =>
    simp only [List.cons_append, runEvents]
    cases holderStep h e with
    | none => simp
    | some h2 => simp [ih h2]

theorem runEvents_cons (h : String → Option Nat) (e : LockEvent) (rest : List LockEvent) :
    runEvents h (e :: rest) = (holderStep h e).bind (fun h2 => runEvents h2 rest) := by
  cases hs : holderStep h e <;> simp [runEvents, hs]

theorem release_mem_of_holder_freed (l : List LockEvent) :
    ∀ (h h2 : String → Option Nat) (t : Nat) (K : String),
      runEvents h l = some h2 → h K = some t → h2 K = none →
      ∃ u, LockEvent.release u K ∈ l := by
  induction l with
  | nil =>
    intro h h2 t K hrun hheld hfree
    simp only [runEvents, Option.some.injEq] at hrun
    rw [← hrun] at hfree
    rw [hheld] at hfree
    exact absurd hfree (by simp)
  | cons e rest ih =>
    intro h h2 t K hrun hheld hfree
    cases e with
    | acquire u k =>
      simp only [runEvents, holderStep] at hrun
      by_cases hk : h k = none
      · rw [if_pos hk] at hrun
        have hne : (K == k) = false := by
          by_cases hKk : K = k
          · subst hKk; rw [hheld] at hk; exact absurd hk (by simp)
          · simp [hKk]
        have hstep : (fun k2 => if k2 == k then some u else h k2) K = some t := by
          simp only [hne, if_false]; exact hheld
        obtain ⟨w, hw⟩ := ih _ h2 t K hrun hstep hfree
        exact ⟨w, List.mem_cons_of_mem _ hw⟩
      · rw [if_neg hk] at hrun
        exact absurd hrun (by simp)
    | release u k =>
      by_cases hKk : K = k
      · exact ⟨u, by rw [hKk]; exact List.mem_cons_self _ _⟩
      · simp only [runEvents, holderStep] at hrun
        by_cases hu : h k = some u
        · rw [if_pos hu] at hrun
          have hne : (K == k) = false := by simp [hKk]
          have hstep : (fun k2 => if k2 == k then none else h k2) K = some t := by
            simp only [hne, if_false]; exact hheld
          obtain ⟨w, hw⟩ := ih _ h2 t K hrun hstep hfree
          exact ⟨w, List.mem_cons_of_mem _ hw⟩
        · rw [if_neg hu] at hrun
          exact absurd hrun (by simp)

/-- C6: per-key mutual exclusion of the async-operation lock.  In any
enabled interleaving of Acquire/Release steps by any goroutines, two
acquisitions of the same key are always separated by a release of that key:
the second Acquire only becomes enabled once the first holder has released,
so held intervals for one key never overlap. -/
theorem acquire_acquire_separated_by_release (h0 : String → Option Nat)
    (pre mid : List LockEvent) (t t2 : Nat) (K : String)
    (hrun : (runEvents h0
        (pre ++ LockEvent.acquire t K :: (mid ++ [LockEvent.acquire t2 K]))).isSome = true) :
    ∃ u, LockEvent.release u K ∈ mid := by
  rw [runEvents_append] at hrun
  cases hpre : runEvents h0 pre with
  | none => rw [hpre] at hrun; simp at hrun
  | some h1 =>
    rw [hpre] at hrun
    simp only [Option.some_bind] at hrun
    rw [runEvents_cons] at hrun
    cases hstep : holderStep h1 (LockEvent.acquire t K) with
    | none => rw [hstep] at hrun; simp at hrun
    | some h2 =>
      rw [hstep] at hrun
      simp only [Option.some_bind] at hrun
      simp only [holderStep] at hstep
      by_cases hfree : h1 K = none
      · rw [if_pos hfree, Option.some.injEq] at hstep
        rw [runEvents_append] at hrun
        cases hmid : runEvents h2 mid with
        | none => rw [hmid] at hrun; simp at hrun
        | some h3 =>
          rw [hmid] at hrun
          simp only [Option.some_bind] at hrun
          rw [runEvents_cons] at hrun
          cases hstep2 : holderStep h3 (LockEvent.acquire t2 K) with
          | none => rw [hstep2] at hrun; simp at hrun
          | some h4 =>
            simp only [holderStep] at hstep2
            by_cases hfree2 : h3 K = none
            · have hheld2 : h2 K = some t := by
                rw [← hstep]; simp
              exact release_mem_of_holder_freed mid h2 h3 t K hmid hheld2 hfree2
            · rw [if_neg hfree2] at hstep2
              exact absurd hstep2 (by simp)
      · rw [if_neg hfree] at hstep
        exact absurd hstep (by simp)

/-- Witness for C6: goroutine 0 acquires and releases key k, then goroutine
1 acquires it; the trace is enabled and the middle segment contains the
release. -/
theorem acquire_acquire_separated_by_release_witness :
    ∃ u, LockEvent.release u "k" ∈ [LockEvent.release 0 "k"] :=
  acquire_acquire_separated_by_release allFree [] [LockEvent.release 0 "k"] 0 1 "k"
    (by decide)

theorem goIntAdd64_eq_of_inbounds (a b : Int) (hlo : -(2 ^ 63) ≤ a + b)
    (hhi : a + b < 2 ^ 63) : goIntAdd64 a b = a + b := by
  have h : (a + b + 2 ^ 63) % 2 ^ 64 = a + b + 2 ^ 63 :=
    Int.emod_eq_of_lt (by omega) (by omega)
  simp only [goIntAdd64, h]
  omega

theorem calculateBlockAddresses_eq_of_parse (block : PublicIPBlock) (o : Int)
    (h4 : (block.BaseIP.splitOn '.').length = 4)
    (ho : goAtoi ((block.BaseIP.splitOn '.').getD 3 []) = some o) :
    calculateBlockAddresses block =
      ((List.range block.Size).map (fun (index : Nat) =>
        List.intercalate ['.']
          ((block.BaseIP.splitOn '.').set 3 (goItoa (goIntAdd64 o (index : Int))))),
       false) := by
  simp only [calculateBlockAddresses]
  rw [if_neg (fun hc => hc h4), ho]

theorem calculateBlockAddresses_eq_of_not4 (block : PublicIPBlock)
    (h4 : (block.BaseIP.splitOn '.').length ≠ 4) :
    calculateBlockAddresses block = (List.replicate block.Size [], true) := by
  simp only [calculateBlockAddresses]
  rw [if_pos h4]

theorem calculateBlockAddresses_eq_of_badOctet (block : PublicIPBlock)
    (h4 : (block.BaseIP.splitOn '.').length = 4)
    (ho : goAtoi ((block.BaseIP.splitOn '.').getD 3 []) = none) :
    calculateBlockAddresses block = (List.replicate block.Size [], true) := by
  simp only [calculateBlockAddresses]
  rw [if_neg (fun hc => hc h4), ho]

/-- C9 counterexample: at BaseIP 10.0.0.9223372036854775807 (4 components,
last octet the maximum int64, accepted by Atoi) and Size 2,
calculateBlockAddresses succeeds, yet address 1 is
10.0.0.-9223372036854775808 — the 64-bit sum wraps — and not BaseIP with
its last octet replaced by the unbounded sum 9223372036854775807 + 1. -/
theorem calculateBlockAddresses_unbounded_counterexample :
    ("10.0.0.9223372036854775807".toList.splitOn '.').length = 4 ∧
    goAtoi (("10.0.0.9223372036854775807".toList.splitOn '.').getD 3 []) =
      some 9223372036854775807 ∧
    (calculateBlockAddresses ⟨"10.0.0.9223372036854775807".toList, 2⟩).2 = false ∧
    (calculateBlockAddresses ⟨"10.0.0.9223372036854775807".toList, 2⟩).1.getD 1 [] =
      "10.0.0.-9223372036854775808".toList ∧
    (calculateBlockAddresses ⟨"10.0.0.9223372036854775807".toList, 2⟩).1.getD 1 [] ≠
      List.intercalate ['.']
        (("10.0.0.9223372036854775807".toList.splitOn '.').set 3
          (goItoa ((9223372036854775807 : Int) + (1 : Int)))) := by
  decide

/-- C9 (amended): when BaseIP splits on dots into exactly 4 components
whose last component parses as an integer, calculateBlockAddresses succeeds
with exactly block.Size addresses, the i-th being BaseIP with its last
octet replaced by the textual value of the 64-bit Go int sum baseOctet + i;
that sum equals the unbounded baseOctet + i whenever the latter fits in
int64 (so no carry into the higher octets — base octet 250 with size 10
reaches 259 — and wrapping only at the int64 boundary); and it reports an
error exactly when the component count is not 4 or the last component does
not parse. -/
theorem calculateBlockAddresses_spec (block : PublicIPBlock) :
    (∀ o : Int, (block.BaseIP.splitOn '.').length = 4 →
      goAtoi ((block.BaseIP.splitOn '.').getD 3 []) = some o →
      (calculateBlockAddresses block).2 = false ∧
      (calculateBlockAddresses block).1.length = block.Size ∧
      (∀ i, i < block.Size →
        (calculateBlockAddresses block).1.getD i [] =
          List.intercalate ['.']
            ((block.BaseIP.splitOn '.').set 3 (goItoa (goIntAdd64 o i)))) ∧
      (∀ i, i < block.Size → -(2 ^ 63) ≤ o + (i : Int) → o + (i : Int) < 2 ^ 63 →
        (calculateBlockAddresses block).1.getD i [] =
          List.intercalate ['.']
            ((block.BaseIP.splitOn '.').set 3 (goItoa (o + (i : Int)))))) ∧
    ((calculateBlockAddresses block).2 = true ↔
      ¬((block.BaseIP.splitOn '.').length = 4 ∧
        (goAtoi ((block.BaseIP.splitOn '.').getD 3 [])).isSome = true)) := by
  constructor
  · intro o h4 ho
    rw [calculateBlockAddresses_eq_of_parse block o h4 ho]
    have hget : ∀ i, i < block.Size →
        ((List.range block.Size).map (fun (index : Nat) =>
          List.intercalate ['.']
            ((block.BaseIP.splitOn '.').set 3 (goItoa (goIntAdd64 o (index : Int)))))).getD
          i [] =
        List.intercalate ['.']
          ((block.BaseIP.splitOn '.').set 3 (goItoa (goIntAdd64 o (i : Int)))) := by
      intro i hi
      rw [List.getD_eq_getElem?_getD, List.getElem?_map, List.getElem?_range hi]
      rfl
    refine ⟨rfl, by rw [List.length_map, List.length_range], hget, ?_⟩
    intro i hi hlo hhi
    rw [hget i hi, goIntAdd64_eq_of_inbounds o (i : Int) hlo hhi]
  · by_cases h4 : (block.BaseIP.splitOn '.').length = 4
    · cases ho : goAtoi ((block.BaseIP.splitOn '.').getD 3 []) with
      | none => rw [calculateBlockAddresses_eq_of_badOctet block h4 ho]; simp [h4, ho]
      | some o => rw [calculateBlockAddresses_eq_of_parse block o h4 ho]; simp [h4, ho]
    · rw [calculateBlockAddresses_eq_of_not4 block h4]; simp [h4]

/-- Witness for C9 on the block at 10.0.0.250 of size 10: the in-range sums
carry no further than the last octet, whose final value is 259. -/
theorem calculateBlockAddresses_spec_witness :
    (calculateBlockAddresses ⟨"10.0.0.250".toList, 10⟩).2 = false ∧
    (calculateBlockAddresses ⟨"10.0.0.250".toList, 10⟩).1.length = 10 ∧
    (calculateBlockAddresses ⟨"10.0.0.250".toList, 10⟩).1.getD 9 [] =
      List.intercalate ['.']
        (("10.0.0.250".toList.splitOn '.').set 3 (goItoa ((250 : Int) + (9 : Nat)))) := by
  have h := (calculateBlockAddresses_spec ⟨"10.0.0.250".toList, 10⟩).1 250
    (by decide) (by decide)
  exact ⟨h.1, h.2.1, h.2.2.2 9 (by decide) (by decide) (by decide)⟩

/-!  Shared lemmas about the password character classes and counters. -/

theorem goIsDigit_not_goIsUpper (c : Char) (h : goIsDigit c = true) :
    goIsUpper c = false := by
  simp only [goIsDigit, Bool.and_eq_true, decide_eq_true_eq] at h
  simp only [goIsUpper, Bool.and_eq_false_iff, decide_eq_false_iff_not, not_le]
  omega

theorem goIsDigit_not_special (c : Char) (h : goIsDigit c = true) :
    (goIsPunct c || goIsSymbol c) = false := by
  simp only [goIsDigit, Bool.and_eq_true, decide_eq_true_eq] at h
  simp [goIsPunct, goIsSymbol]
  omega

theorem goIsUpper_not_special (c : Char) (h : goIsUpper c = true) :
    (goIsPunct c || goIsSymbol c) = false := by
  simp only [goIsUpper, Bool.and_eq_true, decide_eq_true_eq] at h
  simp [goIsPunct, goIsSymbol]
  omega

theorem passwordCounts_facts (pwd : List Char) :
    (passwordCounts pwd).2.1 = pwd.countP goIsDigit ∧
    (passwordCounts pwd).2.2.2 = pwd.countP goIsUpper ∧
    (passwordCounts pwd).2.2.1 = pwd.countP (fun c => goIsPunct c || goIsSymbol c) ∧
    (passwordCounts pwd).2.2.2 ≤ (passwordCounts pwd).1 := by
  induction pwd with
  | nil => simp [passwordCounts]
  | cons c rest ih =>
    obtain ⟨ih1, ih2, ih3, ih4⟩ := ih
    rcases hx : passwordCounts rest with ⟨l, n, s, u⟩
    rw [hx] at ih1 ih2 ih3 ih4
    simp only at ih1 ih2 ih3 ih4
    simp only [passwordCounts, hx, List.countP_cons]
    by_cases hd : goIsDigit c = true
    · have hu := goIsDigit_not_goIsUpper c hd
      have hs := goIsDigit_not_special c hd
      simp [hd, hu, hs, ih1, ih2, ih3] <;> omega
    · by_cases hu : goIsUpper c = true
      · have hs := goIsUpper_not_special c hu
        simp only [Bool.not_eq_true] at hd
        simp [hd, hu, hs, ih1, ih2, ih3] <;> omega
      · simp only [Bool.not_eq_true] at hd hu
        by_cases hps : (goIsPunct c || goIsSymbol c) = true
        · simp [hd, hu, hps, ih1, ih2, ih3] <;> omega
        · simp only [Bool.not_eq_true] at hps
          by_cases hl : (goIsLetter c || decide (c = ' ')) = true
          · simp [hd, hu, hps, hl, ih1, ih2, ih3] <;> omega
          · simp only [Bool.not_eq_true] at hl
            simp [hd, hu, hps, hl, ih1, ih2, ih3] <;> omega

theorem validPassword_iff (pwd : List Char) :
    validPassword pwd = true ↔
      (8 ≤ goLen pwd ∧ (∃ c ∈ pwd, goIsDigit c = true) ∧
       (∃ c ∈ pwd, goIsUpper c = true) ∧
       (∃ c ∈ pwd, (goIsPunct c || goIsSymbol c) = true)) := by
  obtain ⟨h1, h2, h3, h4⟩ := passwordCounts_facts pwd
  rcases hx : passwordCounts pwd with ⟨l, n, s, u⟩
  rw [hx] at h1 h2 h3 h4
  simp only at h1 h2 h3 h4
  simp only [validPassword, hx]
  simp only [Bool.not_eq_true', Bool.or_eq_false_iff, decide_eq_false_iff_not, not_lt]
  constructor
  · rintro ⟨⟨⟨⟨ha, hb⟩, hc2⟩, hd2⟩, he⟩
    refine ⟨ha, ?_, ?_, ?_⟩
    · exact List.countP_pos_iff.mp (by omega)
    · exact List.countP_pos_iff.mp (by omega)
    · exact List.countP_pos_iff.mp (by omega)
  · rintro ⟨ha, hb, hc2, hd2⟩
    have d1 : 0 < List.countP goIsDigit pwd := List.countP_pos_iff.mpr hb
    have d2 : 0 < List.countP goIsUpper pwd := List.countP_pos_iff.mpr hc2
    have d3 : 0 < List.countP (fun c => goIsPunct c || goIsSymbol c) pwd :=
      List.countP_pos_iff.mpr hd2
    exact ⟨⟨⟨⟨ha, by omega⟩, by omega⟩, by omega⟩, by omega⟩

/-- C10: for an OS image, validateAdminPassword accepts exactly the
passwords of length at least 8 bytes containing at least one digit, one
uppercase letter and one punctuation-or-symbol character — the threshold in
the code being 8 even though the rejection message asks for at least 9
characters. -/
theorem validateAdminPassword_os_spec (pwd : List Char) (image : GoImage)
    (h : image.imageType = .os) :
    validateAdminPassword pwd image = none ↔
      (8 ≤ goLen pwd ∧ (∃ c ∈ pwd, goIsDigit c = true) ∧
       (∃ c ∈ pwd, goIsUpper c = true) ∧
       (∃ c ∈ pwd, (goIsPunct c || goIsSymbol c) = true)) := by
  obtain ⟨it, osdata⟩ := image
  simp only at h
  subst h
  rw [← validPassword_iff]
  simp only [validateAdminPassword]
  cases hv : validPassword pwd <;> simp [hv]

/-- Witness for C10 on a concrete OS image and a concrete 9-character
password containing a digit, an uppercase letter and a punctuation
character. -/
theorem validateAdminPassword_os_spec_witness :
    validateAdminPassword "Passw0rd!".toList ⟨.os, ⟨[], []⟩⟩ = none ↔
      (8 ≤ goLen "Passw0rd!".toList ∧
       (∃ c ∈ "Passw0rd!".toList, goIsDigit c = true) ∧
       (∃ c ∈ "Passw0rd!".toList, goIsUpper c = true) ∧
       (∃ c ∈ "Passw0rd!".toList, (goIsPunct c || goIsSymbol c) = true)) :=
  validateAdminPassword_os_spec "Passw0rd!".toList ⟨.os, ⟨[], []⟩⟩ rfl


